import Mathlib

/-!
Shallow embedding of `src/src/modules/music/Music.js` (the music module of
Pyraxo/haru): per-guild playback coordination, reference resolution with a
redis cache, best-audio stream selection, queueing, skip votes.

External effects (redis, ytdl-core, JSON.parse, Date.now, the voice client and
the player backend) are modelled as fields of an `Env` record; the `music:queue`
module and the vote-set storage are not under `src/` and are modelled from the
spec where noted.  JS falsiness is modelled explicitly at each use site
(empty string, 0, null/undefined).
-/

deriving instance DecidableEq for Except

namespace Haru

/-- JS values carried by a rejected promise or a thrown error. -/
inductive JsErr
  | typeError
  | syntaxError
  | jsStr (s : String)
deriving DecidableEq

/-- One entry of `mediaInfo.formats` as `ytdl-core` returns it.
`bitrate = 0` models a missing/falsy combined (video+audio) bitrate,
`audioBitrate = 0` a missing/falsy audio bitrate, `url = ""` a falsy url.
`_format` is the tag `getFormatUrl` writes onto the chosen stream. -/
structure Format where
  itag : Nat
  audioBitrate : Nat
  bitrate : Nat
  container : String
  url : String
  _format : String := ""
deriving DecidableEq

/-- The raw info object from `ytdl.getInfoAsync`, with the two fields
(`url`, `expires`) the module mutates onto it. `video_id = ""` models a
falsy/missing id, `expires = none` the field being absent. -/
structure RawInfo where
  video_id : String
  title : String
  thumbnail_url : String
  formats : List Format
  length_seconds : String
  url : String := ""
  expires : Option Int := none
deriving DecidableEq

/-- The trimmed metadata object `getInfo` builds (`formattedInfo`).
`length = none` models `parseInt` returning `NaN`. -/
structure FormattedInfo where
  video_id : String
  title : String
  thumbnail_url : String
  url : String
  audiourl : String
  audioformat : String
  audiotype : Nat
  expires : Option Int
  length : Option Int
deriving DecidableEq

/-- A JS value a cached entry can parse to: a falsy value (`null`, `false`,
`0`, `""`) or a metadata object. -/
inductive JsVal
  | nullish
  | fmt (f : FormattedInfo)
deriving DecidableEq

/-- What `getInfo` can return: a JS value (default path / cache hit) or the
raw info object (only when `fetchAll` is set). -/
inductive InfoOut
  | val (v : JsVal)
  | raw (i : RawInfo)
deriving DecidableEq

/-- The stored per-guild vote entry: an array of voter ids, or the integer `0`
that the quorum branch stores. -/
inductive VoteVal
  | arr (l : List String)
  | zero
deriving DecidableEq

/-- The module's per-guild mutable state: `this.connections`, `this.volume`,
the `music:queue` module's per-guild queues (modelled from the spec, §4.3),
and the vote-set storage `this.votes` (modelled from the spec, §3). -/
structure MusicState where
  connections : List (String × String)
  volume : List (String × Rat)
  queues : List (String × List InfoOut)
  votes : List (String × VoteVal)
deriving DecidableEq

/-- Calls issued to the external voice/player backend, in order. -/
inductive Effect
  | playerPlay (channelId : String) (info : InfoOut) (volume : Option Rat)
  | playerStop (channelId : String) (immediate : Bool)
  | playerSkip (guildId : String) (channelId : String)
  | joinVoice (voiceID : String)
deriving DecidableEq

/-- The external collaborators `getInfo`/`play`/`connect` consult:
redis (`getAsync`), `JSON.parse`, `ytdl.getInfoAsync`, `Date.now()`,
the per-guild `conn.playing` flag, the permission check, the outcome of
`joinVoiceChannel` and of `player.play`. -/
structure Env where
  sha256hex : String → String
  redisGet : String → Except Unit (Option String)
  jsonParse : String → Option JsVal
  ytdlGetInfo : String → Except String (Option RawInfo)
  now : Int
  playing : String → Bool
  hasPermissions : String → Bool
  joinVoiceOk : Bool
  playerPlayResult : Except JsErr Unit

/-- A voice channel as `play`/`queueSong` see it. -/
structure Channel where
  id : String
  guildId : String
  voiceMembersSize : Nat
  voiceMembersHasBot : Bool
deriving DecidableEq

structure Guild where
  id : String
  name : String
deriving DecidableEq

structure TextChannel where
  id : String
  guild : Option Guild
deriving DecidableEq

/-- `Map.prototype.get`. -/
def mapGet {α : Type} (m : List (String × α)) (k : String) : Option α :=
  (m.find? (fun p => p.1 == k)).map (fun p => p.2)

/-- `Map.prototype.set`. -/
def mapSet {α : Type} (m : List (String × α)) (k : String) (v : α) : List (String × α) :=
  (k, v) :: m.filter (fun p => p.1 != k)

theorem mapGet_mapSet_self {α : Type} (m : List (String × α)) (k : String) (v : α) :
    mapGet (mapSet m k v) k = some v := by
  simp [mapGet, mapSet, List.find?]

/-- Does the pattern occur at the head of the list? -/
def listStartsWith : List Char → List Char → Bool
  | [], _ => true
  | _ :: _, [] => false
  | p :: ps, c :: cs => p == c && listStartsWith ps cs

/-- Longest leading run of decimal digits. -/
def takeDigits : List Char → List Char
  | [] => []
  | c :: cs => if c.isDigit then c :: takeDigits cs else []

def digitsToNat (ds : List Char) : Nat :=
  ds.foldl (fun a c => a * 10 + (c.toNat - 48)) 0

/-- Left-to-right scan for the regex `&expire=([0-9]+)`: at each position, if
the literal `&expire=` is followed by at least one digit, the (maximal) digit
run is the capture; otherwise scanning continues at the next position. -/
def expireScan : List Char → Option Nat
  | [] => none
  | c :: cs =>
    if listStartsWith "&expire=".toList (c :: cs) then
      let ds := takeDigits ((c :: cs).drop 8)
      if ds.isEmpty then expireScan cs else some (digitsToNat ds)
    else expireScan cs

/-- First match of `new RegExp('&expire=([0-9]+)')` against a URL, as a number
(`parseInt` of the capture; digit runs are modelled exactly). -/
def expireParam (s : String) : Option Nat :=
  expireScan s.toList

/-- Remove the first occurrence of the pattern, if any. -/
def removeFirstOcc (pat : List Char) : List Char → List Char
  | [] => []
  | c :: cs =>
    if listStartsWith pat (c :: cs) then (c :: cs).drop pat.length
    else c :: removeFirstOcc pat cs

/-- `String.prototype.replace(searchString, '')`: when the first argument is a
string (not a regex), only the first occurrence of that literal substring is
removed. -/
def jsReplaceFirst (s pat : String) : String :=
  String.mk (removeFirstOcc pat.toList s.toList)

/-- `parseInt` on a clean decimal string: optional sign, then leading digits;
`none` models `NaN` (no digits). -/
def jsParseInt (s : String) : Option Int :=
  match s.toList with
  | '-' :: rest =>
    let ds := takeDigits rest
    if ds.isEmpty then none else some (-(digitsToNat ds : Int))
  | '+' :: rest =>
    let ds := takeDigits rest
    if ds.isEmpty then none else some (digitsToNat ds : Int)
  | l =>
    let ds := takeDigits l
    if ds.isEmpty then none else some (digitsToNat ds : Int)

/-- `bindChannel(guildID, textChannelID)`. -/
def bindChannel (st : MusicState) (guildID textChannelID : String) : MusicState :=
  { st with connections := mapSet st.connections guildID textChannelID }

/-- `unbindChannel(guildID)`. -/
def unbindChannel (st : MusicState) (guildID : String) : MusicState :=
  { st with connections := st.connections.filter (fun p => p.1 != guildID) }

/-- `getBoundChannel(guildID)`: `this.connections.get(guildID) || null`
(a falsy stored value also yields `null`). -/
def getBoundChannel (st : MusicState) (guildID : String) : Option String :=
  match mapGet st.connections guildID with
  | some c => if c = "" then none else some c
  | none => none

/-- Is a JS string argument falsy (`undefined` or `''`)? -/
def strFalsy : Option String → Bool
  | none => true
  | some s => s == ""

/-- `connect(voiceID, textChannel)`. -/
def connect (env : Env) (st : MusicState) (voiceID : Option String)
    (textChannel : Option TextChannel) :
    Except JsErr Unit × MusicState × List Effect :=
  if strFalsy voiceID then (.error (.jsStr "notChannel"), st, [])
  else
    match textChannel with
    | none => (.error (.jsStr "notChannel"), st, [])
    | some tc =>
      match tc.guild with
      | none => (.error (.jsStr "notChannel"), st, [])
      | some guild =>
        let channel := mapGet st.connections guild.id
        let already : Bool :=
          match channel with
          | some c => c != "" && c != tc.id
          | none => false
        if already then (.error (.jsStr "alreadyBinded"), st, [])
        else
          let st1 := bindChannel st guild.id tc.id
          if ¬ env.hasPermissions guild.id then (.error (.jsStr "noPerms"), st1, [])
          else
            let vid := voiceID.getD ""
            if env.joinVoiceOk then (.ok (), st1, [.joinVoice vid])
            else (.error (.jsStr "error"), st1, [.joinVoice vid])

/-- The descending-audioBitrate order of the comparator
`(a, b) => b.audioBitrate - a.audioBitrate`. -/
def abGE (a b : Format) : Prop := b.audioBitrate ≤ a.audioBitrate

instance : DecidableRel abGE := fun a b =>
  inferInstanceAs (Decidable (b.audioBitrate ≤ a.audioBitrate))

instance : IsTotal Format abGE := ⟨fun a b => Nat.le_total b.audioBitrate a.audioBitrate⟩

instance : IsTrans Format abGE := ⟨fun _ _ _ h h2 => Nat.le_trans h2 h⟩

/-- `getFormatUrl(type, formats)`: sorts the array in place by descending
audio bitrate (JS `sort` is stable; both `find` calls below therefore run on
the sorted array), picks the first stream with a positive audio bitrate and no
combined bitrate, else the first with a positive audio bitrate; a missing pick
makes `bestaudio.url` throw (`typeError`); an empty url returns `undefined`
(`none`); otherwise the pick is tagged with `_format = type`. -/
def getFormatUrl (type : String) (formats : List Format) : Except JsErr (Option Format) :=
  let sorted := List.insertionSort abGE formats
  let bestaudio :=
    match sorted.find? (fun f => decide (0 < f.audioBitrate) && decide (f.bitrate = 0)) with
    | some f => some f
    | none => sorted.find? (fun f => decide (0 < f.audioBitrate))
  match bestaudio with
  | none => .error .typeError
  | some f => if f.url = "" then .ok none else .ok (some { f with _format := type })

/-- `[249, 250, 251].includes(parseInt(f.itag))`. -/
def webmItag (f : Format) : Bool := [249, 250, 251].contains f.itag

/-- `[141, 140, 139].includes(parseInt(f.itag))`. -/
def mp4Itag (f : Format) : Bool := [141, 140, 139].contains f.itag

/-- `getBestAudio(mediaInfo)`. -/
def getBestAudio (mediaInfo : RawInfo) : Except JsErr (Option Format) :=
  let formats := mediaInfo.formats.filter webmItag
  if formats.length ≠ 0 then getFormatUrl "webm" formats
  else
    let formats2 := mediaInfo.formats.filter mp4Itag
    let formats3 :=
      if formats2.length = 0 then mediaInfo.formats.filter (fun f => f.container == "mp4")
      else formats2
    if formats3.length ≠ 0 then getFormatUrl "mp4" formats3
    else .ok none

def watchUrl (vid : String) : String :=
  "https://www.youtube.com/watch?v=" ++ vid

/-- The cache key `music:info:` + sha256 hex of the url. -/
def cacheKey (env : Env) (url : String) : String :=
  "music:info:" ++ env.sha256hex url

/-- The `formattedInfo` object literal built at the end of `getInfo`:
`expires: info.expires ? Date.now() - info.expires - 300 : null`. -/
def formatInfo (env : Env) (info : RawInfo) (bestaudio : Format) : FormattedInfo :=
  { video_id := info.video_id
    title := info.title
    thumbnail_url := info.thumbnail_url
    url := info.url
    audiourl := bestaudio.url
    audioformat := bestaudio._format
    audiotype := bestaudio.itag
    expires :=
      match info.expires with
      | some e => if e = 0 then none else some (env.now - e - 300)
      | none => none
    length := jsParseInt info.length_seconds }

/-- The live-resolution tail of `getInfo` (everything after the cache check):
`ytdl.getInfoAsync`, the `video_id` validation, `getBestAudio`, the
`&expire=` extraction (`info.expires = parseInt(match[1]) - 900`), and the
`formattedInfo` construction. -/
def getInfoLive (env : Env) (url : String) (fetchAll : Bool) : Except JsErr InfoOut :=
  match env.ytdlGetInfo url with
  | .error err => .error (.jsStr err)
  | .ok none => .error (.jsStr "noVideoFound")
  | .ok (some info0) =>
    if info0.video_id = "" then .error (.jsStr "noVideoFound")
    else
      let info1 := { info0 with url := watchUrl info0.video_id }
      match getBestAudio info1 with
      | .error e => .error e
      | .ok none => .error .typeError
      | .ok (some bestaudio) =>
        let info2 :=
          if bestaudio.url ≠ "" then
            match expireParam bestaudio.url with
            | some n => { info1 with expires := some ((n : Int) - 900) }
            | none => info1
          else info1
        if fetchAll then .ok (.raw info2)
        else .ok (.val (.fmt (formatInfo env info2 bestaudio)))

/-- `getInfo(url, fetchAll)`: redis read with `.catch(() => false)` (an error
or a falsy reply is a miss); a truthy cached string is returned through
`JSON.parse` (whose throw on a corrupt entry propagates, `syntaxError`);
otherwise live resolution. -/
def getInfo (env : Env) (url : String) (fetchAll : Bool) : Except JsErr InfoOut :=
  let cached : Option String :=
    match env.redisGet (cacheKey env url) with
    | .error _ => none
    | .ok none => none
    | .ok (some s) => if s = "" then none else some s
  match cached with
  | some s =>
    match env.jsonParse s with
    | none => .error .syntaxError
    | some v => .ok (.val v)
  | none => getInfoLive env url fetchAll

/-- `getPlayingState(channel)`: the guild's voice connection's `playing` flag
(`false` when there is no connection). -/
def getPlayingState (env : Env) (channel : Channel) : Bool :=
  env.playing channel.guildId

/-- Modelled from the spec: the `music:queue` module is not under `src/`.
§4.3 Playback Queue — `add(sessionId, item, playNow)` appends the item, or
inserts it at the front when `playNow` is set. -/
def Queue.add (st : MusicState) (guildId : String) (item : InfoOut) (playNow : Bool) :
    MusicState :=
  let q := (mapGet st.queues guildId).getD []
  { st with queues := mapSet st.queues guildId (if playNow then item :: q else q ++ [item]) }

/-- Modelled from the spec: §4.3 — `length(sessionId)`. -/
def Queue.getLength (st : MusicState) (guildId : String) : Nat :=
  ((mapGet st.queues guildId).getD []).length

/-- Modelled from the spec: §4.3 — `remove(sessionId)` clears the guild's
entire queue. -/
def Queue.remove (st : MusicState) (guildId : String) : MusicState :=
  { st with queues := mapSet st.queues guildId [] }

/-- Modelled from the spec: §4.3 — `shift(sessionId)` removes and returns the
front item; `none` models its `QueueEmpty` failure. -/
def Queue.shiftQ (st : MusicState) (guildId : String) : Option InfoOut × MusicState :=
  match (mapGet st.queues guildId).getD [] with
  | [] => (none, st)
  | x :: xs => (some x, { st with queues := mapSet st.queues guildId xs })

theorem Queue.getLength_remove (st : MusicState) (g : String) :
    Queue.getLength (Queue.remove st g) g = 0 := by
  simp [Queue.getLength, Queue.remove, mapGet_mapSet_self]

/-- `item.url` on a queue item (a JS property access: throws on a nullish
item). -/
def jsUrlOf : InfoOut → Except JsErr String
  | .val .nullish => .error .typeError
  | .val (.fmt f) => .ok f.url
  | .raw i => .ok i.url

/-- `mediaInfo.audiourl` (throws on a nullish value; `undefined`, i.e. `""`,
on a raw info object, which has no such field). -/
def jsAudiourl : InfoOut → Except JsErr String
  | .val .nullish => .error .typeError
  | .val (.fmt f) => .ok f.audiourl
  | .raw _ => .ok ""

/-- JS truthiness of a resolved value. -/
def infoTruthy : InfoOut → Bool
  | .val .nullish => false
  | .val (.fmt _) => true
  | .raw _ => true

/-- `play(channel, mediaInfo)`. The recursion is the source's
`this.queue.remove(...); return this.play(channel)` on a dead (falsy) resolved
item; it terminates because the queue has just been cleared. -/
def play (env : Env) (st : MusicState) (channel : Channel) (mediaInfo : Option InfoOut) :
    Except JsErr Unit × MusicState × List Effect :=
  if channel.voiceMembersSize = 1 ∧ channel.voiceMembersHasBot then
    (.ok (), st, [.playerStop channel.id true])
  else if hlen : Queue.getLength st channel.guildId = 0 then
    (.error (.jsStr "noSongs"), st, [])
  else
    match Queue.shiftQ st channel.guildId with
    | (none, _) => (.error (.jsStr "QueueEmpty"), st, [])
    | (some item, st1) =>
      let volume : Rat :=
        match mapGet st.volume channel.guildId with
        | some v => if v = 0 then 2 else v
        | none => 2
      match mediaInfo with
      | some mi =>
        match env.playerPlayResult with
        | .ok _ => (.ok (), st1, [.playerPlay channel.id mi (some volume)])
        | .error e => (.error e, st1, [.playerPlay channel.id mi (some volume)])
      | none =>
        match jsUrlOf item with
        | .error e => (.error e, st1, [])
        | .ok url =>
          match getInfo env url false with
          | .error e => (.error e, st1, [])
          | .ok out =>
            if infoTruthy out then
              let pre : List Effect :=
                if getPlayingState env channel then [.playerStop channel.id false] else []
              match env.playerPlayResult with
              | .ok _ => (.ok (), st1, pre ++ [.playerPlay channel.id out (some volume)])
              | .error e => (.error e, st1, pre ++ [.playerPlay channel.id out (some volume)])
            else
              play env (Queue.remove st1 channel.guildId) channel none
termination_by Queue.getLength st channel.guildId
decreasing_by
  rw [Queue.getLength_remove]
  omega

/-- `queueSong(guildId, voiceChannel, mediaInfo)`. -/
def queueSong (env : Env) (st : MusicState) (guildId : String) (voiceChannel : Channel)
    (mediaInfo : InfoOut) : Except JsErr InfoOut × MusicState × List Effect :=
  if ¬ getPlayingState env voiceChannel then
    let st1 := Queue.add st guildId mediaInfo true
    match jsAudiourl mediaInfo with
    | .error e => (.error e, st1, [])
    | .ok au =>
      if au ≠ "" then
        match env.playerPlayResult with
        | .ok _ => (.ok mediaInfo, st1, [.playerPlay voiceChannel.id mediaInfo none])
        | .error e => (.error e, st1, [.playerPlay voiceChannel.id mediaInfo none])
      else
        match play env st1 voiceChannel none with
        | (.error e, st2, effs) => (.error e, st2, effs)
        | (.ok _, st2, effs) => (.ok mediaInfo, st2, effs)
  else
    (.ok mediaInfo, Queue.add st guildId mediaInfo false, [])

/-- The raw `url` argument of `add` after the two `typeof` checks:
`if (typeof url === 'object') url = url.url` then `typeof url !== 'string'`.
(`other` covers numbers, booleans and `undefined`; an object's `url` field is
either a string or not.) -/
inductive JsField
  | str (s : String)
  | nonStr
deriving DecidableEq

inductive JsIn
  | str (s : String)
  | obj (url : JsField)
  | other
deriving DecidableEq

def addUrlOf : JsIn → Option String
  | .str s => some s
  | .obj (.str s) => some s
  | .obj .nonStr => none
  | .other => none

/-- `mediaInfo && mediaInfo.length && mediaInfo.length > 5400`
(a raw info object has no `length` field, and a `NaN` length is falsy). -/
def tooLongCheck : InfoOut → Bool
  | .val .nullish => false
  | .val (.fmt f) =>
    match f.length with
    | some n => decide (n ≠ 0 ∧ 5400 < n)
    | none => false
  | .raw _ => false

/-- `add(guildId, voiceChannel, url)`.  Note the source passes the *string*
`'/<|>/g'` (not a regex) to `replace`, so only that literal substring would
be removed. -/
def add (env : Env) (st : MusicState) (guildId : String) (voiceChannel : Channel)
    (urlIn : JsIn) : Except JsErr InfoOut × MusicState × List Effect :=
  match addUrlOf urlIn with
  | none => (.error (.jsStr "invalidURL"), st, [])
  | some url0 =>
    let url := jsReplaceFirst url0 "/<|>/g"
    match getInfo env url false with
    | .error e => (.error e, st, [])
    | .ok mediaInfo =>
      if tooLongCheck mediaInfo then (.error (.jsStr "tooLong"), st, [])
      else queueSong env st guildId voiceChannel mediaInfo

/-- `setVolume(guild, volume)` (after `parseInt`). -/
def setVolume (st : MusicState) (guildId : String) (volume : Int) : MusicState :=
  { st with volume := mapSet st.volume guildId (((volume : Rat) * 2) / 100) }

/-- The skip request: `msg.guild.id`, `msg.author.id`, the resolved voice
channel of `msg.member.voiceState.channelID`, and `channel.members` as the
member count (the spec's §6 "members present" query). -/
structure SkipMsg where
  guildId : String
  authorId : String
  channelId : String
  channelMembers : Nat
deriving DecidableEq

inductive SkipRes
  | unitRes
  | alreadyVoted
  | voteSuccess
  | skipped
deriving DecidableEq

/-- `this.votes.get(guildId) || []` (the stored integer `0` is falsy and reads
back as the empty array). -/
def getVotes (st : MusicState) (guildId : String) : List String :=
  match mapGet st.votes guildId with
  | some (.arr l) => l
  | some .zero => []
  | none => []

/-- `skip(msg, force)`.  The vote-set storage `this.votes` is modelled from
the spec (§3: each session owns its vote set); the source file itself never
initialises the map.  `vote.length / channel.members < 0.5` is exact rational
division compared with the exact literal `0.5 = mkRat 1 2` (IEEE doubles are
exact at these magnitudes, and the division only runs under `members > 2`). -/
def skip (st : MusicState) (msg : SkipMsg) (force : Bool) :
    Except JsErr SkipRes × MusicState × List Effect :=
  if Queue.getLength st msg.guildId ≤ 1 then (.ok .unitRes, st, [])
  else
    if force = false ∧ 2 < msg.channelMembers then
      let vote := getVotes st msg.guildId
      if msg.authorId ∈ vote then (.ok .alreadyVoted, st, [])
      else
        let vote1 := vote ++ [msg.authorId]
        if Rat.divInt vote1.length msg.channelMembers < mkRat 1 2 then
          (.ok .voteSuccess, { st with votes := mapSet st.votes msg.guildId (.arr vote1) }, [])
        else
          (.ok .skipped, { st with votes := mapSet st.votes msg.guildId .zero },
            [.playerSkip msg.guildId msg.channelId])
    else
      (.ok .skipped, st, [.playerSkip msg.guildId msg.channelId])

/-! ### Concrete fixtures used by witnesses and counterexamples -/

/-- The spec's audio-only webm stream: itag 250, bitrate 70. -/
def exF250 : Format :=
  { itag := 250, audioBitrate := 70, bitrate := 0, container := "webm", url := "https://a/250" }

/-- The spec's mixed mp4 stream: itag 140, bitrate 128, with a combined
bitrate. -/
def exF140 : Format :=
  { itag := 140, audioBitrate := 128, bitrate := 1280, container := "mp4", url := "https://a/140" }

def exRaw : RawInfo :=
  { video_id := "vid"
    title := "t"
    thumbnail_url := "th"
    formats := [exF140, exF250]
    length_seconds := "100" }

/-- A raw info whose chosen stream URL carries `&expire=2000000000`. -/
def exRawExp : RawInfo :=
  { exRaw with formats := [{ exF250 with url := "https://a/250?&expire=2000000000&x" }] }

/-- A resolver environment: cache read fails, live resolution succeeds. -/
def exEnv : Env :=
  { sha256hex := fun _ => "HASH"
    redisGet := fun _ => .error ()
    jsonParse := fun _ => none
    ytdlGetInfo := fun _ => .ok (some exRaw)
    now := 1700000000000
    playing := fun _ => false
    hasPermissions := fun _ => true
    joinVoiceOk := true
    playerPlayResult := .ok () }

def exSt : MusicState := { connections := [], volume := [], queues := [], votes := [] }

def exCh : Channel := { id := "chan", guildId := "g", voiceMembersSize := 3, voiceMembersHasBot := true }

def exEnvExp : Env :=
  { exEnv with redisGet := fun _ => .ok none, ytdlGetInfo := fun _ => .ok (some exRawExp) }

/-- What `getInfo exEnvExp` actually returns. -/
def exFmtExp : FormattedInfo :=
  { video_id := "vid"
    title := "t"
    thumbnail_url := "th"
    url := "https://www.youtube.com/watch?v=vid"
    audiourl := "https://a/250?&expire=2000000000&x"
    audioformat := "webm"
    audiotype := 250
    expires := some 1698000000600
    length := some 100 }

/-! ### C1 -/

/-- C1, counterexample.  The chosen stream URL signals `expire=2000000000`,
so the claim says the returned `expires` field is the absolute
`2000000000 - 900 = 1999999100`; the code instead stores
`Date.now() - (2000000000 - 900) - 300 = 1698000000600`. -/
theorem C1_counterexample :
    getInfo exEnvExp "u" false = .ok (.val (.fmt exFmtExp)) ∧
    exFmtExp.expires = some 1698000000600 ∧
    exFmtExp.expires ≠ some (2000000000 - 900) := by
  refine ⟨by decide, by decide, by decide⟩

/-- C1, amended.  On a live resolution (cache miss) whose chosen audio stream
URL signals an expiry `n`, `getInfo` first computes the intermediate
`info.expires = n - 900` and then stores, as the returned metadata's `expires`
field, `Date.now() - (n - 900) - 300` (when the intermediate is nonzero);
when the URL carries no expiry signal the `expires` field is `null`. -/
theorem C1_expires (env : Env) (url : String) (raw : RawInfo) (ba : Format)
    (hmiss : env.redisGet (cacheKey env url) = .ok none)
    (hfetch : env.ytdlGetInfo url = .ok (some raw))
    (hvid : raw.video_id ≠ "")
    (hba : getBestAudio { raw with url := watchUrl raw.video_id } = .ok (some ba))
    (hurl : ba.url ≠ "")
    (hre : raw.expires = none) :
    (∀ n : Nat, expireParam ba.url = some n → (n : Int) ≠ 900 →
      ∃ f, getInfo env url false = .ok (.val (.fmt f)) ∧
        f.expires = some (env.now - ((n : Int) - 900) - 300)) ∧
    (expireParam ba.url = none →
      ∃ f, getInfo env url false = .ok (.val (.fmt f)) ∧ f.expires = none) := by
  constructor
  · intro n hn hn900
    refine ⟨formatInfo env
      { raw with url := watchUrl raw.video_id, expires := some ((n : Int) - 900) } ba, ?_, ?_⟩
    · simp [getInfo, hmiss, getInfoLive, hfetch, hvid, hba, hurl, hn]
    · have h0 : (n : Int) - 900 ≠ 0 := sub_ne_zero.mpr hn900
      simp [formatInfo, h0]
  · intro hn
    refine ⟨formatInfo env { raw with url := watchUrl raw.video_id } ba, ?_, ?_⟩
    · simp [getInfo, hmiss, getInfoLive, hfetch, hvid, hba, hurl, hn]
    · simp [formatInfo, hre]

/-- C1 witness: the amended theorem evaluated at `exEnvExp`. -/
theorem C1_expires_witness :
    ∃ f, getInfo exEnvExp "u" false = .ok (.val (.fmt f)) ∧
      f.expires = some (exEnvExp.now - ((2000000000 : Int) - 900) - 300) :=
  (C1_expires exEnvExp "u" exRawExp { exF250 with url := "https://a/250?&expire=2000000000&x", _format := "webm" }
      rfl rfl (by decide) (by decide) (by decide) rfl).1 2000000000 (by decide) (by decide)

/-! ### C2 -/

/-- An environment whose cached entry is a corrupt (unparseable) string and
whose live resolution would succeed. -/
def exEnvCorrupt : Env :=
  { exEnv with redisGet := fun _ => .ok (some "corrupt"), jsonParse := fun _ => none }

/-- What live resolution returns in `exEnv`-based environments. -/
def exFmt : FormattedInfo :=
  { video_id := "vid"
    title := "t"
    thumbnail_url := "th"
    url := "https://www.youtube.com/watch?v=vid"
    audiourl := "https://a/250"
    audioformat := "webm"
    audiotype := 250
    expires := none
    length := some 100 }

/-- C2, counterexample.  With a corrupt cached entry, `getInfo` propagates the
`JSON.parse` error to its caller instead of yielding the live-resolved result
(which would have succeeded). -/
theorem C2_counterexample :
    getInfo exEnvCorrupt "u" false = .error .syntaxError ∧
    getInfoLive exEnvCorrupt "u" false = .ok (.val (.fmt exFmt)) := by
  refine ⟨by decide, by decide⟩

/-- C2, amended.  A cache *read* failure (and likewise a falsy reply) is
swallowed and treated as a miss: `getInfo` still runs live resolution.  But a
cached entry that cannot be parsed makes `getInfo` propagate the parse error
to its caller. -/
theorem C2_cache_errors :
    (∀ (env : Env) (url : String) (fetchAll : Bool),
      env.redisGet (cacheKey env url) = .error () →
      getInfo env url fetchAll = getInfoLive env url fetchAll) ∧
    (∀ (env : Env) (url : String) (fetchAll : Bool) (s : String),
      env.redisGet (cacheKey env url) = .ok (some s) → s ≠ "" →
      env.jsonParse s = none →
      getInfo env url fetchAll = .error .syntaxError) := by
  constructor
  · intro env url fetchAll h
    simp [getInfo, h]
  · intro env url fetchAll s h hs hp
    simp [getInfo, h, hs, hp]

/-- C2 witness: the amended theorem evaluated at `exEnv` (read failure: live
result is still produced) and at `exEnvCorrupt` (corrupt entry: parse error
propagates). -/
theorem C2_cache_errors_witness :
    getInfo exEnv "u" false = getInfoLive exEnv "u" false ∧
    getInfo exEnvCorrupt "u" false = .error .syntaxError :=
  ⟨C2_cache_errors.1 exEnv "u" false rfl,
   C2_cache_errors.2 exEnvCorrupt "u" false "corrupt" rfl (by decide) rfl⟩

/-! ### C3 -/

/-- In a list that is pairwise related by `R`, the first element `find?`
accepts is `R`-above every accepted element. -/
theorem find?_max_of_pairwise {α : Type} {R : α → α → Prop} {p : α → Bool} :
    ∀ {l : List α} {g : α}, l.Pairwise R → l.find? p = some g →
      ∀ f ∈ l, p f = true → f = g ∨ R g f
  | [], g, _, hf => by simp [List.find?] at hf
  | x :: xs, g, hp, hf => by
    rcases List.pairwise_cons.mp hp with ⟨hx, hxs⟩
    by_cases hpx : p x = true
    · rw [List.find?_cons_of_pos _ hpx] at hf
      cases hf
      intro f hm _
      rcases List.mem_cons.mp hm with hfx | hfxs
      · exact Or.inl hfx
      · exact Or.inr (hx f hfxs)
    · rw [List.find?_cons_of_neg _ hpx] at hf
      intro f hm hpf
      rcases List.mem_cons.mp hm with hfx | hfxs
      · exact absurd (hfx ▸ hpf) hpx
      · exact find?_max_of_pairwise hxs hf f hfxs hpf

/-- What `getFormatUrl` selects: an element of the candidate list, tagged with
the family, with a nonempty url and a positive audio bitrate; and whenever the
pick has no combined bitrate it has the greatest audio bitrate among all
candidates with a positive audio bitrate and no combined bitrate. -/
theorem getFormatUrl_spec (ty : String) (formats : List Format) (g : Format)
    (h : getFormatUrl ty formats = .ok (some g)) :
    ∃ f0 ∈ formats, g = { f0 with _format := ty } ∧ f0.url ≠ "" ∧
      0 < f0.audioBitrate ∧
      (f0.bitrate = 0 → ∀ f ∈ formats, 0 < f.audioBitrate → f.bitrate = 0 →
        f.audioBitrate ≤ f0.audioBitrate) := by
  have hsorted : (List.insertionSort abGE formats).Pairwise abGE :=
    List.sorted_insertionSort abGE formats
  rw [getFormatUrl] at h
  rcases h1 : (List.insertionSort abGE formats).find?
      (fun f => decide (0 < f.audioBitrate) && decide (f.bitrate = 0)) with _ | f0
  · -- first `find` failed: no candidate has positive audio bitrate and no
    -- combined bitrate; the fallback `find` is used
    rcases h2 : (List.insertionSort abGE formats).find?
        (fun f => decide (0 < f.audioBitrate)) with _ | f0
    · rw [h1, h2] at h
      simp at h
    · rw [h1, h2] at h
      have hp0 := List.find?_some h2
      have hm0 := List.mem_of_find?_eq_some h2
      simp only [decide_eq_true_eq] at hp0
      by_cases hu : f0.url = ""
      · simp [hu] at h
      · simp only [hu, if_neg, ite_false, Except.ok.injEq, Option.some.injEq] at h
        refine ⟨f0, (List.mem_insertionSort abGE).mp hm0, h.symm, hu, hp0, ?_⟩
        intro hb0
        exact absurd (by simp [hp0, hb0]) (List.find?_eq_none.mp h1 f0 hm0)
  · rw [h1] at h
    have hp0 := List.find?_some h1
    have hm0 := List.mem_of_find?_eq_some h1
    simp only [Bool.and_eq_true, decide_eq_true_eq] at hp0
    by_cases hu : f0.url = ""
    · simp [hu] at h
    · simp only [hu, if_neg, ite_false, Except.ok.injEq, Option.some.injEq] at h
      refine ⟨f0, (List.mem_insertionSort abGE).mp hm0, h.symm, hu, hp0.1, ?_⟩
      intro _ f hf hfab hfb
      have hmem : f ∈ List.insertionSort abGE formats := (List.mem_insertionSort abGE).mpr hf
      have := find?_max_of_pairwise hsorted h1 f hmem (by simp [hfab, hfb])
      rcases this with hfe | hge
      · exact hfe ▸ le_refl _
      · exact hge

/-- The candidate set `getBestAudio` dispatches to: webm itags first, then mp4
itags, then any `mp4`-container stream. -/
def chosenFamily (mi : RawInfo) : List Format :=
  let formats := mi.formats.filter webmItag
  if formats.length ≠ 0 then formats
  else
    let formats2 := mi.formats.filter mp4Itag
    if formats2.length = 0 then mi.formats.filter (fun f => f.container == "mp4")
    else formats2

/-- C3: best-audio selection is deterministic with fixed family priority.
Whenever `getBestAudio` selects a stream: a webm itag (249/250/251) stream is
chosen whenever one exists; otherwise an mp4 itag (141/140/139) stream
whenever one exists; otherwise an `mp4`-container stream.  The selected stream
comes from the dispatched candidate set, has positive audio bitrate and a
nonempty url, and — when it has no combined bitrate — carries the greatest
audio bitrate among the candidates with positive audio bitrate and no
combined bitrate (otherwise it is a positive-audio-bitrate fallback). -/
theorem C3_best_audio (mi : RawInfo) (g : Format)
    (h : getBestAudio mi = .ok (some g)) :
    ((∃ f ∈ mi.formats, webmItag f = true) → webmItag g = true ∧ g._format = "webm") ∧
    ((∀ f ∈ mi.formats, webmItag f = false) → (∃ f ∈ mi.formats, mp4Itag f = true) →
      mp4Itag g = true ∧ g._format = "mp4") ∧
    ((∀ f ∈ mi.formats, webmItag f = false) → (∀ f ∈ mi.formats, mp4Itag f = false) →
      g.container = "mp4" ∧ g._format = "mp4") ∧
    (∃ f0 ∈ chosenFamily mi, g = { f0 with _format := g._format } ∧
      0 < f0.audioBitrate ∧ f0.url ≠ "" ∧
      (f0.bitrate = 0 → ∀ f ∈ chosenFamily mi, 0 < f.audioBitrate → f.bitrate = 0 →
        f.audioBitrate ≤ f0.audioBitrate)) := by
  by_cases hw : (mi.formats.filter webmItag).length = 0
  · have hwnone : ∀ f ∈ mi.formats, webmItag f = false := by
      intro f hf
      have := (List.filter_eq_nil_iff.mp (List.length_eq_zero.mp hw)) f hf
      simpa using this
    by_cases hm : (mi.formats.filter mp4Itag).length = 0
    · -- container fallback family
      have hmnone : ∀ f ∈ mi.formats, mp4Itag f = false := by
        intro f hf
        have := (List.filter_eq_nil_iff.mp (List.length_eq_zero.mp hm)) f hf
        simpa using this
      have hb : getBestAudio mi =
          (if (mi.formats.filter (fun f => f.container == "mp4")).length ≠ 0 then
            getFormatUrl "mp4" (mi.formats.filter (fun f => f.container == "mp4"))
          else .ok none) := by
        simp only [getBestAudio]
        rw [if_neg (fun hne => hne hw), if_pos hm]
      have hcf : chosenFamily mi = mi.formats.filter (fun f => f.container == "mp4") := by
        simp only [chosenFamily]
        rw [if_neg (fun hne => hne hw), if_pos hm]
      rw [hb] at h
      by_cases hc : (mi.formats.filter (fun f => f.container == "mp4")).length = 0
      · rw [if_neg (fun hne => hne hc)] at h
        simp at h
      · rw [if_pos hc] at h
        obtain ⟨f0, hf0, hg, hu, hab, hmax⟩ := getFormatUrl_spec _ _ _ h
        have hfmt : g._format = "mp4" := by rw [hg]
        have hcont : f0.container = "mp4" := by
          have := (List.mem_filter.mp hf0).2
          simpa using this
        refine ⟨?_, ?_, ?_, ?_⟩
        · rintro ⟨f, hf, hwf⟩
          exact absurd (hwnone f hf) (by simp [hwf])
        · rintro _ ⟨f, hf, hmf⟩
          exact absurd (hmnone f hf) (by simp [hmf])
        · intro _ _
          constructor
          · rw [hg]; exact hcont
          · exact hfmt
        · exact ⟨f0, hcf ▸ hf0,
            by rw [hfmt]; exact hg, hab, hu, fun hb0 => by rw [hcf]; exact hmax hb0⟩
    · -- mp4 itag family
      have hb : getBestAudio mi = getFormatUrl "mp4" (mi.formats.filter mp4Itag) := by
        simp only [getBestAudio]
        rw [if_neg (fun hne => hne hw), if_neg hm, if_pos hm]
      have hcf : chosenFamily mi = mi.formats.filter mp4Itag := by
        simp only [chosenFamily]
        rw [if_neg (fun hne => hne hw), if_neg hm]
      rw [hb] at h
      obtain ⟨f0, hf0, hg, hu, hab, hmax⟩ := getFormatUrl_spec _ _ _ h
      have hfmt : g._format = "mp4" := by rw [hg]
      have hitag : mp4Itag f0 = true := (List.mem_filter.mp hf0).2
      refine ⟨?_, ?_, ?_, ?_⟩
      · rintro ⟨f, hf, hwf⟩
        exact absurd (hwnone f hf) (by simp [hwf])
      · intro _ _
        constructor
        · have : mp4Itag g = mp4Itag f0 := by rw [hg]; rfl
          rw [this]; exact hitag
        · exact hfmt
      · intro _ hnom
        exact absurd (hnom f0 (List.mem_filter.mp hf0).1) (by simp [hitag])
      · exact ⟨f0, hcf ▸ hf0, by rw [hfmt]; exact hg, hab, hu,
          fun hb0 => by rw [hcf]; exact hmax hb0⟩
  · -- webm family
    have hb : getBestAudio mi = getFormatUrl "webm" (mi.formats.filter webmItag) := by
      simp only [getBestAudio]
      rw [if_pos hw]
    have hcf : chosenFamily mi = mi.formats.filter webmItag := by
      simp only [chosenFamily]
      rw [if_pos hw]
    rw [hb] at h
    obtain ⟨f0, hf0, hg, hu, hab, hmax⟩ := getFormatUrl_spec _ _ _ h
    have hfmt : g._format = "webm" := by rw [hg]
    have hitag : webmItag f0 = true := (List.mem_filter.mp hf0).2
    refine ⟨?_, ?_, ?_, ?_⟩
    · intro _
      constructor
      · have : webmItag g = webmItag f0 := by rw [hg]; rfl
        rw [this]; exact hitag
      · exact hfmt
    · intro hnow _
      exact absurd (hnow f0 (List.mem_filter.mp hf0).1) (by simp [hitag])
    · intro hnow _
      exact absurd (hnow f0 (List.mem_filter.mp hf0).1) (by simp [hitag])
    · exact ⟨f0, hcf ▸ hf0, by rw [hfmt]; exact hg, hab, hu,
        fun hb0 => by rw [hcf]; exact hmax hb0⟩

/-- The stream `getBestAudio` picks on the spec's example candidates. -/
def exPick : Format := { exF250 with _format := "webm" }

/-- C3 witness: on the spec's example — an audio-only itag-250 stream with
bitrate 70 against a mixed itag-140 stream with bitrate 128 — the itag-250
webm stream is selected despite its lower bitrate. -/
theorem C3_best_audio_witness :
    getBestAudio exRaw = .ok (some exPick) ∧ exPick.itag = 250 ∧
    webmItag exPick = true ∧ exPick._format = "webm" := by
  refine ⟨by decide, by decide, ?_⟩
  exact (C3_best_audio exRaw exPick (by decide)).1 ⟨exF250, by decide, by decide⟩

/-! ### C4 -/

/-- An environment in which something is already audibly playing. -/
def exEnvPlaying : Env := { exEnv with playing := fun _ => true }

/-- A state whose guild `g` queue holds one resolved item. -/
def exStOne : MusicState := { exSt with queues := [("g", [.val (.fmt exFmt)])] }

/-- A voice channel with several members (the auto-stop special case does not
fire). -/
def exChNoBot : Channel :=
  { id := "chan", guildId := "g", voiceMembersSize := 3, voiceMembersHasBot := false }

/-- C4, counterexample.  Something is already audibly playing
(`playing = true`), yet on the explicit-metadata path `play` issues
`player.play` with no preceding stop: the effect trace contains a play and no
stop at all. -/
theorem C4_counterexample :
    exEnvPlaying.playing exChNoBot.guildId = true ∧
    play exEnvPlaying exStOne exChNoBot (some (.val (.fmt exFmt))) =
      (.ok (), { exStOne with queues := mapSet exStOne.queues "g" [] },
        [.playerPlay "chan" (.val (.fmt exFmt)) (some 2)]) ∧
    (∀ cid b, Effect.playerStop cid b ∉
      [Effect.playerPlay "chan" (.val (.fmt exFmt)) (some 2)]) := by
  refine ⟨rfl, ?_, ?_⟩
  · rw [play]
    simp [exEnvPlaying, exStOne, exChNoBot, exEnv, exSt, mapGet, mapSet,
      Queue.getLength, Queue.shiftQ]
  · intro cid b h
    simp at h

/-- C4, amended.  On the re-resolution path (no explicit metadata), whenever
something is already audibly playing, `play` issues the external stop
immediately before the play.  On the explicit-metadata path, however, `play`
issues the play with no preceding stop even while something is playing. -/
theorem C4_stop_before_play (env : Env) (st : MusicState) (channel : Channel)
    (item : InfoOut) (rest : List InfoOut) (u : String) (out : InfoOut)
    (hbot : ¬ (channel.voiceMembersSize = 1 ∧ channel.voiceMembersHasBot))
    (hq : (mapGet st.queues channel.guildId).getD [] = item :: rest)
    (hu : jsUrlOf item = .ok u)
    (hout : getInfo env u false = .ok out)
    (htr : infoTruthy out = true)
    (hplaying : env.playing channel.guildId = true)
    (hok : env.playerPlayResult = .ok ()) :
    ∃ v,
      play env st channel none =
        (.ok (), { st with queues := mapSet st.queues channel.guildId rest },
          [.playerStop channel.id false, .playerPlay channel.id out (some v)]) ∧
      ∀ mi, play env st channel (some mi) =
        (.ok (), { st with queues := mapSet st.queues channel.guildId rest },
          [.playerPlay channel.id mi (some v)]) := by
  have hlen : Queue.getLength st channel.guildId = rest.length + 1 := by
    simp [Queue.getLength, hq]
  have hshift : Queue.shiftQ st channel.guildId =
      (some item, { st with queues := mapSet st.queues channel.guildId rest }) := by
    simp [Queue.shiftQ, hq]
  refine ⟨(match mapGet st.volume channel.guildId with
    | some v => if v = 0 then 2 else v
    | none => 2), ?_, ?_⟩
  · rw [play, if_neg hbot, dif_neg (by omega), hshift]
    simp [hu, hout, htr, getPlayingState, hplaying, hok]
  · intro mi
    rw [play, if_neg hbot, dif_neg (by omega), hshift]
    simp [hok]

/-- A dead-item state: the queue item resolves but to a falsy value. -/
def exEnvNullish : Env :=
  { exEnv with redisGet := fun _ => .ok (some "null"), jsonParse := fun _ => some .nullish }

/-- C4 witness: the amended theorem evaluated on a one-item queue with
`playing = true`: the trace is exactly stop-then-play. -/
theorem C4_stop_before_play_witness :
    ∃ v,
      play exEnvPlaying exStOne exChNoBot none =
        (.ok (), { exStOne with queues := mapSet exStOne.queues "g" [] },
          [.playerStop "chan" false,
            .playerPlay "chan" (.val (.fmt exFmt)) (some v)]) ∧
      ∀ mi, play exEnvPlaying exStOne exChNoBot (some mi) =
        (.ok (), { exStOne with queues := mapSet exStOne.queues "g" [] },
          [.playerPlay "chan" mi (some v)]) :=
  C4_stop_before_play exEnvPlaying exStOne exChNoBot (.val (.fmt exFmt)) [] exFmt.url
    (.val (.fmt exFmt)) (by decide) rfl rfl (by decide) rfl rfl rfl

/-! ### C9 -/

/-- C9: the dead-item retry terminates.  When the popped item resolves to
nothing usable, `play` clears the session's queue and retries exactly once
with no metadata; the now-empty queue makes the retry fail with `noSongs`.
(`play` itself is total — Lean accepts it with the decreasing measure
`Queue.getLength`, so no unbounded recursion is possible.) -/
theorem C9_dead_item_retry (env : Env) (st : MusicState) (channel : Channel)
    (item : InfoOut) (rest : List InfoOut) (u : String) (out : InfoOut)
    (hbot : ¬ (channel.voiceMembersSize = 1 ∧ channel.voiceMembersHasBot))
    (hq : (mapGet st.queues channel.guildId).getD [] = item :: rest)
    (hu : jsUrlOf item = .ok u)
    (hout : getInfo env u false = .ok out)
    (hfalsy : infoTruthy out = false) :
    play env st channel none =
      (.error (.jsStr "noSongs"),
        Queue.remove { st with queues := mapSet st.queues channel.guildId rest }
          channel.guildId, []) := by
  have hlen : Queue.getLength st channel.guildId = rest.length + 1 := by
    simp [Queue.getLength, hq]
  have hshift : Queue.shiftQ st channel.guildId =
      (some item, { st with queues := mapSet st.queues channel.guildId rest }) := by
    simp [Queue.shiftQ, hq]
  rw [play, if_neg hbot, dif_neg (by omega), hshift]
  simp only [hu, hout, hfalsy, Bool.false_eq_true, if_false]
  rw [play, if_neg hbot, dif_pos (Queue.getLength_remove _ _)]

/-- C9 witness: a one-item queue whose item resolves (via a cached `null`) to
a falsy value — the retry drains into `noSongs`. -/
theorem C9_dead_item_retry_witness :
    play exEnvNullish exStOne exChNoBot none =
      (.error (.jsStr "noSongs"),
        Queue.remove { exStOne with queues := mapSet exStOne.queues "g" [] } "g", []) :=
  C9_dead_item_retry exEnvNullish exStOne exChNoBot (.val (.fmt exFmt)) [] exFmt.url
    (.val .nullish) (by decide) rfl rfl (by decide) rfl

/-! ### C5 -/

theorem Queue.getLength_add (st : MusicState) (g : String) (item : InfoOut) (pn : Bool) :
    Queue.getLength (Queue.add st g item pn) g = Queue.getLength st g + 1 := by
  cases pn <;> simp [Queue.getLength, Queue.add, mapGet_mapSet_self]

/-- C5, counterexample.  `add`'s Idle path with immediately available
metadata: the item is inserted at the front (`playNow`) *and* handed to the
player, so the queue length grows from 0 to 1 — it is not left unchanged. -/
theorem C5_counterexample :
    exEnv.playing exChNoBot.guildId = false ∧
    Queue.getLength exSt "g" = 0 ∧
    queueSong exEnv exSt "g" exChNoBot (.val (.fmt exFmt)) =
      (.ok (.val (.fmt exFmt)), Queue.add exSt "g" (.val (.fmt exFmt)) true,
        [.playerPlay "chan" (.val (.fmt exFmt)) none]) ∧
    Queue.getLength (Queue.add exSt "g" (.val (.fmt exFmt)) true) "g" = 1 := by
  refine ⟨rfl, by decide, ?_, by decide⟩
  simp [queueSong, getPlayingState, exEnv, jsAudiourl, exFmt, exChNoBot]

/-- C5, amended.  On an Idle session with metadata carrying a playable audio
URL, the item is inserted at the *front* of the queue and handed to the player
immediately, so the queue length strictly increases by one (the item is both
played and left queued); on a Playing session the item is appended with no
immediate start and the queue length strictly increases by one. -/
theorem C5_add_item (env : Env) (st : MusicState) (guildId : String) (ch : Channel)
    (f : FormattedInfo) (mi : InfoOut) :
    (env.playing ch.guildId = false → f.audiourl ≠ "" → env.playerPlayResult = .ok () →
      queueSong env st guildId ch (.val (.fmt f)) =
        (.ok (.val (.fmt f)), Queue.add st guildId (.val (.fmt f)) true,
          [.playerPlay ch.id (.val (.fmt f)) none]) ∧
      Queue.getLength (Queue.add st guildId (.val (.fmt f)) true) guildId =
        Queue.getLength st guildId + 1) ∧
    (env.playing ch.guildId = true →
      queueSong env st guildId ch mi = (.ok mi, Queue.add st guildId mi false, []) ∧
      Queue.getLength (Queue.add st guildId mi false) guildId =
        Queue.getLength st guildId + 1) := by
  constructor
  · intro hidle hau hok
    refine ⟨?_, Queue.getLength_add st guildId _ true⟩
    simp [queueSong, getPlayingState, hidle, jsAudiourl, hau, hok]
  · intro hplaying
    refine ⟨?_, Queue.getLength_add st guildId _ false⟩
    simp [queueSong, getPlayingState, hplaying]

/-- C5 witness: the amended theorem evaluated on an Idle session (front
insert, immediate play, length 0 → 1) and on a Playing session (append, no
play, length 1 → 2). -/
theorem C5_add_item_witness :
    (queueSong exEnv exSt "g" exChNoBot (.val (.fmt exFmt)) =
        (.ok (.val (.fmt exFmt)), Queue.add exSt "g" (.val (.fmt exFmt)) true,
          [.playerPlay "chan" (.val (.fmt exFmt)) none]) ∧
      Queue.getLength (Queue.add exSt "g" (.val (.fmt exFmt)) true) "g" =
        Queue.getLength exSt "g" + 1) ∧
    (queueSong exEnvPlaying exStOne "g" exChNoBot (.val (.fmt exFmt)) =
        (.ok (.val (.fmt exFmt)), Queue.add exStOne "g" (.val (.fmt exFmt)) false, []) ∧
      Queue.getLength (Queue.add exStOne "g" (.val (.fmt exFmt)) false) "g" =
        Queue.getLength exStOne "g" + 1) :=
  ⟨(C5_add_item exEnv exSt "g" exChNoBot exFmt (.val (.fmt exFmt))).1 rfl (by decide) rfl,
   (C5_add_item exEnvPlaying exStOne "g" exChNoBot exFmt (.val (.fmt exFmt))).2 rfl⟩

/-! ### C6 -/

/-- C6: `add` rejects with `tooLong` exactly the resolved items whose duration
exceeds 5400 seconds. -/
theorem C6_too_long (env : Env) (st : MusicState) (guildId : String) (ch : Channel)
    (s : String) (f : FormattedInfo) (n : Int)
    (hres : getInfo env (jsReplaceFirst s "/<|>/g") false = .ok (.val (.fmt f)))
    (hlen : f.length = some n)
    (hau : f.audiourl ≠ "")
    (hok : env.playerPlayResult = .ok ()) :
    (add env st guildId ch (.str s)).1 = .error (.jsStr "tooLong") ↔ 5400 < n := by
  by_cases h54 : 5400 < n
  · have hchk : tooLongCheck (.val (.fmt f)) = true := by
      simp only [tooLongCheck, hlen]
      simp only [decide_eq_true_eq]
      exact ⟨by omega, h54⟩
    simp [add, addUrlOf, hres, hchk, h54]
  · have hchk : tooLongCheck (.val (.fmt f)) = false := by
      simp only [tooLongCheck, hlen]
      simp [h54]
    simp only [add, addUrlOf, hres, hchk, Bool.false_eq_true, if_false]
    constructor
    · intro hres1
      by_cases hp : env.playing ch.guildId = true
      · simp [queueSong, getPlayingState, hp] at hres1
      · simp [queueSong, getPlayingState, hp, jsAudiourl, hau, hok] at hres1
    · intro hgt
      exact absurd hgt h54

/-- Environments whose cached entry resolves to an item of length 5401
(rejected) and 5400 (accepted and routed to queueing). -/
def exEnvLong : Env :=
  { exEnv with
    redisGet := fun _ => .ok (some "J")
    jsonParse := fun _ => some (.fmt { exFmt with length := some 5401 }) }

def exEnvMax : Env :=
  { exEnv with
    redisGet := fun _ => .ok (some "J")
    jsonParse := fun _ => some (.fmt { exFmt with length := some 5400 }) }

/-- C6 witness: length 5401 is rejected with `tooLong`; length 5400 is not
rejected — it is routed to queueing (here: front-inserted and played). -/
theorem C6_too_long_witness :
    (add exEnvLong exSt "g" exChNoBot (.str "u")).1 = .error (.jsStr "tooLong") ∧
    (add exEnvMax exSt "g" exChNoBot (.str "u")).1 ≠ .error (.jsStr "tooLong") ∧
    add exEnvMax exSt "g" exChNoBot (.str "u") =
      (.ok (.val (.fmt { exFmt with length := some 5400 })),
        Queue.add exSt "g" (.val (.fmt { exFmt with length := some 5400 })) true,
        [.playerPlay "chan" (.val (.fmt { exFmt with length := some 5400 })) none]) := by
  refine ⟨?_, ?_, ?_⟩
  · exact (C6_too_long exEnvLong exSt "g" exChNoBot "u"
      { exFmt with length := some 5401 } 5401 rfl rfl (by decide) rfl).mpr (by decide)
  · intro h
    exact absurd ((C6_too_long exEnvMax exSt "g" exChNoBot "u"
      { exFmt with length := some 5400 } 5400 rfl rfl (by decide) rfl).mp h) (by decide)
  · simp [add, addUrlOf, tooLongCheck, queueSong, getPlayingState, exEnvMax, exEnv, jsAudiourl,
      exFmt, exChNoBot, jsReplaceFirst, removeFirstOcc, listStartsWith, getInfo, cacheKey]

/-! ### C7 -/

/-- An environment whose resolver echoes the reference it receives, making
visible which string reaches resolution. -/
def exEnvEcho : Env := { exEnv with ytdlGetInfo := fun u => .error ("resolver saw " ++ u) }

/-- C7: `add` does reject non-string / non-object-with-string-url inputs with
`invalidURL`, but it does **not** strip `<`/`>` from an accepted reference:
`url.replace('/<|>/g', '')` passes a *string* (not a regex), so only the
literal substring `/<|>/g` would be removed, and a bracketed reference
reaches the resolver unchanged. -/
theorem C7_brackets_not_stripped :
    jsReplaceFirst "<https://youtu.be/x>" "/<|>/g" = "<https://youtu.be/x>" ∧
    (add exEnvEcho exSt "g" exChNoBot (.str "<https://youtu.be/x>")).1 =
      .error (.jsStr "resolver saw <https://youtu.be/x>") ∧
    (add exEnvEcho exSt "g" exChNoBot (.obj .nonStr)).1 = .error (.jsStr "invalidURL") ∧
    (add exEnvEcho exSt "g" exChNoBot .other).1 = .error (.jsStr "invalidURL") := by
  refine ⟨by decide, by decide, by decide, by decide⟩

/-! ### C8 -/

theorem getVotes_set_arr (st : MusicState) (g : String) (l : List String) :
    getVotes { st with votes := mapSet st.votes g (.arr l) } g = l := by
  simp [getVotes, mapGet_mapSet_self]

theorem getVotes_set_zero (st : MusicState) (g : String) :
    getVotes { st with votes := mapSet st.votes g .zero } g = [] := by
  simp [getVotes, mapGet_mapSet_self]

/-- C8: the skip-vote quorum protocol.  For a non-forced skip in a channel
with more than 2 members and queue length > 1: a repeat voter gets
`alreadyVoted` with nothing changed; a first-time voter is appended to the
vote set, and if votes/members < 0.5 the set is persisted and `voteSuccess`
is returned with no skip, otherwise the stored entry reads back as the empty
vote set and the external skip is invoked. -/
theorem C8_skip_votes (st : MusicState) (msg : SkipMsg)
    (hmem : 2 < msg.channelMembers)
    (hq : 1 < Queue.getLength st msg.guildId) :
    (msg.authorId ∈ getVotes st msg.guildId →
      skip st msg false = (.ok .alreadyVoted, st, [])) ∧
    (msg.authorId ∉ getVotes st msg.guildId →
      (Rat.divInt ((getVotes st msg.guildId ++ [msg.authorId]).length) msg.channelMembers <
          mkRat 1 2 →
        skip st msg false =
          (.ok .voteSuccess,
            { st with
              votes := mapSet st.votes msg.guildId
                (.arr (getVotes st msg.guildId ++ [msg.authorId])) }, []) ∧
        getVotes (skip st msg false).2.1 msg.guildId =
          getVotes st msg.guildId ++ [msg.authorId]) ∧
      (¬ Rat.divInt ((getVotes st msg.guildId ++ [msg.authorId]).length) msg.channelMembers <
          mkRat 1 2 →
        skip st msg false =
          (.ok .skipped, { st with votes := mapSet st.votes msg.guildId .zero },
            [.playerSkip msg.guildId msg.channelId]) ∧
        getVotes (skip st msg false).2.1 msg.guildId = [])) := by
  have hq1 : ¬ Queue.getLength st msg.guildId ≤ 1 := by omega
  refine ⟨?_, ?_⟩
  · intro hin
    simp [skip, hq1, hmem, hin]
  · intro hnin
    refine ⟨?_, ?_⟩
    · intro hlt
      have hlt2 : mkRat (((getVotes st msg.guildId).length : Int) + 1) msg.channelMembers <
          mkRat 1 2 := by
        simpa using hlt
      have heq : skip st msg false =
          (.ok .voteSuccess,
            { st with
              votes := mapSet st.votes msg.guildId
                (.arr (getVotes st msg.guildId ++ [msg.authorId])) }, []) := by
        simp [skip, hq1, hmem, hnin, hlt2]
      exact ⟨heq, by rw [heq]; exact getVotes_set_arr st msg.guildId _⟩
    · intro hge
      have hge2 : mkRat 1 2 ≤
          mkRat (((getVotes st msg.guildId).length : Int) + 1) msg.channelMembers := by
        simpa [not_lt] using hge
      have heq : skip st msg false =
          (.ok .skipped, { st with votes := mapSet st.votes msg.guildId .zero },
            [.playerSkip msg.guildId msg.channelId]) := by
        simp [skip, hq1, hmem, hnin, not_lt.mpr hge2]
      exact ⟨heq, by rw [heq]; exact getVotes_set_zero st msg.guildId⟩

/-- A session with a 2-item queue and one recorded vote, in a 5-member
channel. -/
def exStVote1 : MusicState :=
  { connections := []
    volume := []
    queues := [("g", [.val (.fmt exFmt), .val .nullish])]
    votes := [("g", .arr ["a"])] }

def exStVote2 : MusicState := { exStVote1 with votes := [("g", .arr ["a", "b"])] }

def exMsgA : SkipMsg := { guildId := "g", authorId := "a", channelId := "c", channelMembers := 5 }

def exMsgB : SkipMsg := { exMsgA with authorId := "b" }

def exMsgC : SkipMsg := { exMsgA with authorId := "c" }

/-- C8 witness: 5 members — a repeat voter gets `alreadyVoted`; the 2nd vote
(2/5 < 0.5) yields `voteSuccess` and persists the set; the 3rd vote
(3/5 ≥ 0.5) clears the vote set and invokes the external skip. -/
theorem C8_skip_votes_witness :
    skip exStVote1 exMsgA false = (.ok .alreadyVoted, exStVote1, []) ∧
    (skip exStVote1 exMsgB false =
      (.ok .voteSuccess,
        { exStVote1 with votes := mapSet exStVote1.votes "g" (.arr ["a", "b"]) }, []) ∧
      getVotes (skip exStVote1 exMsgB false).2.1 "g" = ["a", "b"]) ∧
    (skip exStVote2 exMsgC false =
      (.ok .skipped, { exStVote2 with votes := mapSet exStVote2.votes "g" .zero },
        [.playerSkip "g" "c"]) ∧
      getVotes (skip exStVote2 exMsgC false).2.1 "g" = []) :=
  ⟨(C8_skip_votes exStVote1 exMsgA (by decide) (by decide)).1 (by decide),
   (C8_skip_votes exStVote1 exMsgB (by decide) (by decide)).2 (by decide) |>.1 (by decide),
   (C8_skip_votes exStVote2 exMsgC (by decide) (by decide)).2 (by decide) |>.2 (by decide)⟩

/-! ### C10 -/

/-- C10: `connect` installs the new text-channel binding *before* the
permission check, so a `connect` that fails with `noPerms` or with the
connection error leaves the session bound to the newly supplied text channel;
the previous binding is never restored. -/
theorem C10_connect_binding (env : Env) (st : MusicState) (v : Option String)
    (tc : TextChannel) (guild : Guild)
    (hg : tc.guild = some guild)
    (hv : strFalsy v = false)
    (htc : tc.id ≠ "")
    (hbind : mapGet st.connections guild.id = none ∨
      mapGet st.connections guild.id = some tc.id ∨
      mapGet st.connections guild.id = some "")
    (hfail : env.hasPermissions guild.id = false ∨
      (env.hasPermissions guild.id = true ∧ env.joinVoiceOk = false)) :
    ((connect env st v (some tc)).1 = .error (.jsStr "noPerms") ∨
      (connect env st v (some tc)).1 = .error (.jsStr "error")) ∧
    getBoundChannel (connect env st v (some tc)).2.1 guild.id = some tc.id := by
  have halready :
      (match mapGet st.connections guild.id with
        | some c => c != "" && c != tc.id
        | none => false) = false := by
    rcases hbind with h | h | h <;> simp [h]
  have hbound : getBoundChannel (bindChannel st guild.id tc.id) guild.id = some tc.id := by
    simp [getBoundChannel, bindChannel, mapGet_mapSet_self, htc]
  rcases hfail with hperm | ⟨hperm, hjoin⟩
  · have hconn : connect env st v (some tc) =
        (.error (.jsStr "noPerms"), bindChannel st guild.id tc.id, []) := by
      simp [connect, hv, hg, halready, hperm]
    rw [hconn]
    exact ⟨Or.inl rfl, hbound⟩
  · have hconn : connect env st v (some tc) =
        (.error (.jsStr "error"), bindChannel st guild.id tc.id,
          [.joinVoice (v.getD "")]) := by
      simp [connect, hv, hg, halready, hperm, hjoin]
    rw [hconn]
    exact ⟨Or.inr rfl, hbound⟩

def exTc : TextChannel := { id := "text", guild := some { id := "g", name := "G" } }

def exEnvNoPerm : Env := { exEnv with hasPermissions := fun _ => false }

/-- C10 witness: a permission-denied `connect` on an unbound session leaves
the session bound to the supplied text channel. -/
theorem C10_connect_binding_witness :
    ((connect exEnvNoPerm exSt (some "voice") (some exTc)).1 = .error (.jsStr "noPerms") ∨
      (connect exEnvNoPerm exSt (some "voice") (some exTc)).1 = .error (.jsStr "error")) ∧
    getBoundChannel (connect exEnvNoPerm exSt (some "voice") (some exTc)).2.1 "g" =
      some "text" :=
  C10_connect_binding exEnvNoPerm exSt (some "voice") exTc { id := "g", name := "G" }
    rfl rfl (by decide) (Or.inl rfl) (Or.inl rfl)

end Haru
